import Mathlib

/-!
Verification of the PDF Library Manager backend (Express server) and its
React chat component against the natural-language specification.

The document-record store, the RAG ingestion orchestrator
(`processPdfWithRag`, `processPdfsWithRagBatch`, `rechunkPdf`), the
capability-config endpoint and the upload/reprocess/tag endpoints are
embedded from `backend/server.js`.  The retrieval-augmented chat relay
(`handleSendMessage`) is embedded from `frontend/src/components/Chatbot.js`.
Remote HTTP calls are modelled by an explicit `FetchResult` environment:
each operation is a pure function of the store and of the responses the
external services would return.
-/

/-- The three values the server ever assigns to `ragStatus`
(`'processing' | 'success' | 'failed'`). -/
inductive RagStatus where
  | processing
  | success
  | failed
deriving DecidableEq, Repr

/-- One entry of `pdfsDatabase`, as built by the upload handler
(`url` and `uploadedAt` are derived presentation fields and are omitted). -/
structure PdfRecord where
  id : String
  filename : String
  storedFilename : String
  size : Nat
  tags : List String
  ragStatus : RagStatus
  ragError : Option String
  chunksCount : Nat
deriving DecidableEq, Repr

/-- Outcome of one `fetch` to an external service: the promise rejects
(network error), the response is non-2xx (`response.ok` false, with the
`response.text()` body), `response.json()` throws, or a parsed value. -/
inductive FetchResult (α : Type) where
  | networkError (msg : String)
  | httpError (body : String)
  | malformedJson (msg : String)
  | ok (value : α)
deriving DecidableEq, Repr

/-- `pdfsDatabase.find(p => p.id === id)` / lookup via `findIndex`:
the first record whose `id` matches. -/
def findRec : List PdfRecord → String → Option PdfRecord
  | [], _ => none
  | r :: rs, id => if r.id = id then some r else findRec rs id

/-- `pdfsDatabase[pdfsDatabase.findIndex(p => p.id === id)] = f(...)`:
mutate the first record carrying `id`, leave the rest alone; a missing
record (`findIndex === -1`) leaves the database unchanged. -/
def updateFirst (db : List PdfRecord) (id : String) (f : PdfRecord → PdfRecord) :
    List PdfRecord :=
  match db with
  | [] => []
  | r :: rs => if r.id = id then f r :: rs else r :: updateFirst rs id f

/-- `processPdfWithRag` (server.js): POST `/process-pdf-path`; on a 2xx
response set `ragStatus = 'success'`, `ragError = null`,
`chunksCount = result.chunks_created`; on any thrown error set
`ragStatus = 'failed'`, `ragError = error.message` (the non-2xx branch
throws `RAG service error: <body>`).  Returns the updated database and the
settled promise value. -/
def processPdfWithRag (db : List PdfRecord) (pdf : PdfRecord)
    (resp : FetchResult Nat) : List PdfRecord × Except String Nat :=
  match resp with
  | .ok chunks =>
      (updateFirst db pdf.id fun r =>
        { r with ragStatus := .success, ragError := none, chunksCount := chunks },
       .ok chunks)
  | .networkError msg =>
      (updateFirst db pdf.id fun r =>
        { r with ragStatus := .failed, ragError := some msg },
       .error msg)
  | .httpError body =>
      (updateFirst db pdf.id fun r =>
        { r with ragStatus := .failed, ragError := some ("RAG service error: " ++ body) },
       .error ("RAG service error: " ++ body))
  | .malformedJson msg =>
      (updateFirst db pdf.id fun r =>
        { r with ragStatus := .failed, ragError := some msg },
       .error msg)

/-- One element of the batch endpoint response `result.results`. -/
structure BatchItemResult where
  pdf_id : String
  success : Bool
  chunks_created : Nat
  error : Option String
deriving DecidableEq, Repr

/-- Parsed JSON body of a 2xx `/process-batch` response. -/
structure BatchResponse where
  results : List BatchItemResult
deriving DecidableEq, Repr

/-- Responses the Retrieval Service would give to the three ingestion
endpoints (`/process-pdf-path`, `/process-batch`, `/rechunk/<id>`). -/
structure RagEnv where
  single : FetchResult Nat
  batch : FetchResult BatchResponse
  rechunk : FetchResult Nat
deriving DecidableEq, Repr

/-- The catch-block update `ragStatus = 'failed'; ragError = error.message`. -/
def markFailed (msg : String) (r : PdfRecord) : PdfRecord :=
  { r with ragStatus := .failed, ragError := some msg }

/-- The per-item update loop of `processPdfsWithRagBatch` over
`result.results`. -/
def applyBatchItem (db : List PdfRecord) (item : BatchItemResult) : List PdfRecord :=
  updateFirst db item.pdf_id fun r =>
    if item.success then
      { r with ragStatus := .success, ragError := none, chunksCount := item.chunks_created }
    else
      { r with ragStatus := .failed, ragError := item.error }

/-- The catch-block loop of `processPdfsWithRagBatch`: mark every PDF of
the submitted batch `failed` with the shared error message. -/
def markAllFailed (db : List PdfRecord) (pdfs : List PdfRecord) (msg : String) :
    List PdfRecord :=
  match pdfs with
  | [] => db
  | p :: ps => markAllFailed (updateFirst db p.id (markFailed msg)) ps msg

/-- `processPdfsWithRagBatch` (server.js): empty batches return at once; a
batch of one delegates to `processPdfWithRag`; otherwise one POST
`/process-batch` call is made, its per-item results are folded into the
database, and if the call itself throws every batch member is marked
`failed` with the thrown message (the non-2xx branch throws
`RAG batch service error: <body>`). -/
def processPdfsWithRagBatch (db : List PdfRecord) (pdfs : List PdfRecord)
    (env : RagEnv) : List PdfRecord × Except String Unit :=
  match pdfs with
  | [] => (db, .ok ())
  | [pdf] =>
      let res := processPdfWithRag db pdf env.single
      (res.1, res.2.map fun _ => ())
  | p1 :: p2 :: rest =>
      match env.batch with
      | .ok result => (result.results.foldl applyBatchItem db, .ok ())
      | .networkError m => (markAllFailed db (p1 :: p2 :: rest) m, .error m)
      | .httpError body =>
          (markAllFailed db (p1 :: p2 :: rest) ("RAG batch service error: " ++ body),
           .error ("RAG batch service error: " ++ body))
      | .malformedJson m => (markAllFailed db (p1 :: p2 :: rest) m, .error m)

/-- `rechunkPdf` (server.js): POST `/rechunk/<id>`; on 2xx set the record
to `success` with the new chunk count, on any thrown error set it to
`failed` with the message (non-2xx throws `RAG service error: <body>` —
this is the path a Retrieval-Service cache miss takes, since the service
answers it with a non-2xx response). -/
def rechunkPdf (db : List PdfRecord) (pdfId : String) (resp : FetchResult Nat) :
    List PdfRecord × Except String Nat :=
  match resp with
  | .ok chunks =>
      (updateFirst db pdfId fun r =>
        { r with ragStatus := .success, ragError := none, chunksCount := chunks },
       .ok chunks)
  | .networkError msg =>
      (updateFirst db pdfId (markFailed msg), .error msg)
  | .httpError body =>
      (updateFirst db pdfId (markFailed ("RAG service error: " ++ body)),
       .error ("RAG service error: " ++ body))
  | .malformedJson msg =>
      (updateFirst db pdfId (markFailed msg), .error msg)

/-- POST `/api/rag/reprocess/:id` (server.js), including the state the
fire-and-forget background task leaves behind once it settles: 404 leaves
the store alone; otherwise the record is reset to `processing` with its
error cleared and persisted, the old index entries are deleted
(best-effort), and either `rechunkPdf` or `processPdfWithRag` runs. -/
def reprocessEndpoint (db : List PdfRecord) (id : String) (rechunkOnly : Bool)
    (env : RagEnv) : List PdfRecord :=
  match findRec db id with
  | none => db
  | some pdf =>
      let db1 := updateFirst db id fun r =>
        { r with ragStatus := .processing, ragError := none }
      if rechunkOnly then (rechunkPdf db1 id env.rechunk).1
      else (processPdfWithRag db1 pdf env.single).1

/-- JS `String.prototype.split(',')` over the character sequence. -/
def splitCommasAux : List Char → List Char → List String
  | [], acc => [String.mk acc.reverse]
  | c :: cs, acc =>
      if c = ',' then String.mk acc.reverse :: splitCommasAux cs []
      else splitCommasAux cs (c :: acc)

/-- JS `s.split(',')`. -/
def splitCommas (s : String) : List String :=
  splitCommasAux s.data []

/-- JS `String.prototype.trim()`: strip leading and trailing
whitespace. -/
def trimStr (s : String) : String :=
  String.mk
    (((s.data.dropWhile Char.isWhitespace).reverse.dropWhile Char.isWhitespace).reverse)

/-- The upload handler tag parsing (server.js line 122):
`tags ? tags.split(',').map(t => t.trim()).filter(t => t) : []`. -/
def parseTags (s : String) : List String :=
  if s = "" then []
  else ((splitCommas s).map trimStr).filter (fun t => t ≠ "")

/-- One file accepted by multer for `/api/upload` (identifier generation
and disk storage happen before the handler body runs). -/
structure UploadFile where
  id : String
  filename : String
  storedFilename : String
  size : Nat
deriving DecidableEq, Repr

/-- The `pdfData` object the upload handler pushes for each file. -/
def mkPdfData (tags : List String) (f : UploadFile) : PdfRecord :=
  { id := f.id, filename := f.filename, storedFilename := f.storedFilename,
    size := f.size, tags := tags, ragStatus := .processing, ragError := none,
    chunksCount := 0 }

/-- PUT `/api/pdfs/:id/tags` (server.js): store `req.body.tags || []`
verbatim on the record (404 when the record is missing). -/
def updateTagsEndpoint (db : List PdfRecord) (id : String)
    (tags : Option (List String)) : List PdfRecord :=
  match findRec db id with
  | none => db
  | some _ => updateFirst db id fun r => { r with tags := tags.getD [] }

/-- Observable effects of a handler in order: a `saveDatabase()` call
persisting the given store contents, or a network call to the Retrieval
Service. -/
inductive Event where
  | persist (db : List PdfRecord)
  | netCall (endpoint : String)
deriving DecidableEq, Repr

/-- Event trace of `processPdfWithRag`: the `/process-pdf-path` call, then
`saveDatabase()` (the latter only when the record is still present). -/
def processPdfWithRagTrace (db : List PdfRecord) (pdf : PdfRecord)
    (resp : FetchResult Nat) : List Event :=
  Event.netCall "process-pdf-path" ::
    (if (findRec db pdf.id).isSome then
      [Event.persist (processPdfWithRag db pdf resp).1]
    else [])

/-- Event trace of `rechunkPdf`. -/
def rechunkPdfTrace (db : List PdfRecord) (pdfId : String)
    (resp : FetchResult Nat) : List Event :=
  Event.netCall "rechunk" ::
    (if (findRec db pdfId).isSome then
      [Event.persist (rechunkPdf db pdfId resp).1]
    else [])

/-- Event trace of `processPdfsWithRagBatch`: both the success and the
catch branch call `saveDatabase()` after updating the records. -/
def processPdfsWithRagBatchTrace (db : List PdfRecord) (pdfs : List PdfRecord)
    (env : RagEnv) : List Event :=
  match pdfs with
  | [] => []
  | [pdf] => processPdfWithRagTrace db pdf env.single
  | p1 :: p2 :: rest =>
      [Event.netCall "process-batch",
       Event.persist (processPdfsWithRagBatch db (p1 :: p2 :: rest) env).1]

/-- POST `/api/upload` (server.js): records for all files are pushed with
`ragStatus = 'processing'` and persisted, and only then is the
(fire-and-forget) batch processing started.  Returns the final store and
the ordered event trace. -/
def uploadEndpoint (db : List PdfRecord) (files : List UploadFile)
    (tagsField : String) (env : RagEnv) : List PdfRecord × List Event :=
  match files with
  | [] => (db, [])
  | _ =>
      let tags := parseTags tagsField
      let newRecs := files.map (mkPdfData tags)
      let db1 := db ++ newRecs
      ((processPdfsWithRagBatch db1 newRecs env).1,
       Event.persist db1 :: processPdfsWithRagBatchTrace db1 newRecs env)

/-- Event trace of POST `/api/rag/reprocess/:id`: persist the
`processing` state, delete the old index entries, then rechunk or
reprocess. -/
def reprocessEndpointTrace (db : List PdfRecord) (id : String)
    (rechunkOnly : Bool) (env : RagEnv) : List Event :=
  match findRec db id with
  | none => []
  | some pdf =>
      let db1 := updateFirst db id fun r =>
        { r with ragStatus := .processing, ragError := none }
      Event.persist db1 :: Event.netCall "delete-document" ::
        (if rechunkOnly then rechunkPdfTrace db1 id env.rechunk
         else processPdfWithRagTrace db1 pdf env.single)

/-- Whether the store contents being persisted show record `id` in the
`processing` state. -/
def statusIsProcessing (db : List PdfRecord) (id : String) : Bool :=
  match findRec db id with
  | some r => r.ragStatus = RagStatus.processing
  | none => false

/-- Trace check for claim C4: walking the trace left to right, every
network call must be preceded by a persist whose contents show record
`id` as `processing` (`seen` carries whether one was passed already). -/
def netCallsAfterProcessingPersist (id : String) : Bool → List Event → Bool
  | _, [] => true
  | seen, Event.persist db :: rest =>
      netCallsAfterProcessingPersist id (seen || statusIsProcessing db id) rest
  | seen, Event.netCall _ :: rest =>
      seen && netCallsAfterProcessingPersist id seen rest

/-- `defaults` object of the `/api/rag/config` payload. -/
structure RagConfigDefaults where
  extractor_mode : String
  chunker_mode : String
  merge_window : Nat
deriving DecidableEq, Repr

/-- `options` object of the `/api/rag/config` payload. -/
structure RagConfigOptions where
  extractor_modes : List String
  chunker_modes : List String
  merge_window_range : List Nat
deriving DecidableEq, Repr

/-- Payload of GET `/api/rag/config`. -/
structure RagConfig where
  defaults : RagConfigDefaults
  options : RagConfigOptions
deriving DecidableEq, Repr

/-- The hard-coded fallback configuration of the catch branch of
GET `/api/rag/config` (server.js). -/
def defaultRagConfig : RagConfig :=
  { defaults := { extractor_mode := "text", chunker_mode := "agentic", merge_window := 3 },
    options := { extractor_modes := ["text", "vision"],
                 chunker_modes := ["semantic", "agentic"],
                 merge_window_range := [0, 5] } }

/-- GET `/api/rag/config` (server.js): forward the live configuration on
success and answer 200 with `defaultRagConfig` on any failure. -/
def configEndpoint (resp : FetchResult RagConfig) : Nat × RagConfig :=
  match resp with
  | .ok config => (200, config)
  | _ => (200, defaultRagConfig)

/-- One retrieval hit of `/api/rag/query` as consumed by the chat
component (`r.text`, `r.metadata.filename`, `r.metadata.page_num`,
`r.similarity`; the score is carried through untouched, so its numeric
type is irrelevant here). -/
structure RagResult where
  text : String
  filename : String
  page_num : Nat
  similarity : Int
deriving DecidableEq, Repr

/-- Parsed JSON body of a 2xx retrieval-query response. -/
structure RagData where
  results : List RagResult
deriving DecidableEq, Repr

/-- A citation entry attached to a bot message. -/
structure Source where
  filename : String
  page : Nat
  similarity : Int
deriving DecidableEq, Repr

/-- One entry of the `messages` React state in Chatbot.js. -/
structure ChatMessage where
  id : Nat
  text : String
  sender : String
  sources : Option (List Source)
deriving DecidableEq, Repr

/-- One `{role, content}` element sent to the Generation Service. -/
structure ChatTurn where
  role : String
  content : String
deriving DecidableEq, Repr

/-- One line of the generation stream: an independently parseable JSON
object with a `content` field, or a non-JSON line (skipped). -/
inductive GenLine where
  | content (s : String)
  | malformed
deriving DecidableEq, Repr

/-- Outcome of the generation-stream fetch: rejected promise, non-2xx
response, or a 2xx response whose body is the given sequence of lines. -/
inductive GenResp where
  | networkError
  | httpError
  | ok (lines : List GenLine)
deriving DecidableEq, Repr

/-- Responses of the two services a chat turn may contact. -/
structure ChatEnv where
  ragResp : FetchResult RagData
  genResp : GenResp
deriving DecidableEq, Repr

/-- The JSON body of the retrieval query the chat component issues. -/
structure RagQuery where
  query : String
  tags : Option (List String)
  top_k : Nat
deriving DecidableEq, Repr

/-- The React state `handleSendMessage` manipulates. -/
structure ChatState where
  messages : List ChatMessage
  isLoading : Bool
deriving DecidableEq, Repr

/-- Result of one chat turn: final state, the retrieval query issued (if
any) and the message list sent to the Generation Service (if the request
was issued). -/
structure ChatOutcome where
  state : ChatState
  ragQuery : Option RagQuery
  genRequest : Option (List ChatTurn)
deriving DecidableEq, Repr

/-- The context block built from retrieval hits (Chatbot.js):
`[Source <i+1>: <filename>, Page <page>]\n<text>` joined by
`\n\n---\n\n`. -/
def buildRagContext (results : List RagResult) : String :=
  String.intercalate "\n\n---\n\n"
    (results.enum.map fun p =>
      "[Source " ++ toString (p.1 + 1) ++ ": " ++ p.2.filename ++ ", Page " ++
        toString p.2.page_num ++ "]\n" ++ p.2.text)

/-- The citation list built from the same retrieval hits. -/
def buildSources (results : List RagResult) : List Source :=
  results.map fun r =>
    { filename := r.filename, page := r.page_num, similarity := r.similarity }

/-- The augmented prompt wrapped around the user question when context is
non-empty (Chatbot.js). -/
def ragPrompt (ragContext userInput : String) : String :=
  "Use the following context from the user\x27s documents to answer their question. Respond in the SAME LANGUAGE as the user\x27s question.\n\nCONTEXT:\n"
    ++ ragContext
    ++ "\n\nQUESTION: " ++ userInput
    ++ "\n\nInstructions: Answer based on the context above. Cite sources (filename, page) when relevant. If the context doesn\x27t help, say so briefly and give a general answer. Match the user\x27s language."

/-- The fixed fallback bot message of the catch branch of
`handleSendMessage`. -/
def fallbackText : String :=
  "Sorry, I couldn\x27t connect to the AI service. Please make sure LM Studio is running."

/-- `messages.filter(msg => msg.text && !msg.sources).map(...)`: prior
turns mapped role-preserving, dropping empty texts and source-carrying
duplicates of streamed text. -/
def toHistory (messages : List ChatMessage) : List ChatTurn :=
  (messages.filter fun m => m.text != "" && m.sources.isNone).map fun m =>
    { role := if m.sender = "user" then "user" else "assistant", content := m.text }

/-- The retrieval step of `handleSendMessage`: when RAG is enabled and
available, the query response is read; a 2xx response with at least one
hit yields the context block and citation list, and everything else
(disabled, unavailable, failed call, non-2xx, malformed body, zero hits)
yields no context and no citations. -/
def ragContextAndSources (ragEnabled ragAvailable : Bool)
    (resp : FetchResult RagData) : String × List Source :=
  if ragEnabled && ragAvailable then
    match resp with
    | .ok data =>
        if data.results.length > 0 then
          (buildRagContext data.results, buildSources data.results)
        else ("", [])
    | _ => ("", [])
  else ("", [])

/-- The streaming read loop of `handleSendMessage`: each parsed line with
non-empty `content` is appended to the accumulated text; the first such
line creates the bot message (with the citations computed before the
request), later ones rewrite the text of the message with `botId`.
Returns the message list and whether a bot message was created. -/
def streamLoop (botId : Nat) (srcOpt : Option (List Source)) :
    List ChatMessage → String → Bool → List GenLine → List ChatMessage × Bool
  | msgs, _, created, [] => (msgs, created)
  | msgs, fullText, created, GenLine.content s :: rest =>
      if s = "" then streamLoop botId srcOpt msgs fullText created rest
      else
        if created then
          streamLoop botId srcOpt
            (msgs.map fun m => if m.id = botId then { m with text := fullText ++ s } else m)
            (fullText ++ s) true rest
        else
          streamLoop botId srcOpt
            (msgs ++ [{ id := botId, text := fullText ++ s, sender := "bot", sources := srcOpt }])
            (fullText ++ s) true rest
  | msgs, fullText, created, GenLine.malformed :: rest =>
      streamLoop botId srcOpt msgs fullText created rest

/-- `handleSendMessage` (Chatbot.js).  `now` stands for `Date.now()`; the
bot message id is `now + 1`.  An empty (all-whitespace) input returns at
once.  The user message is appended and the loading flag raised; when RAG
is enabled and available a retrieval query is issued and a non-2xx or
failed or empty-result response degrades to no context; the outbound
message is the wrapped prompt exactly when context is non-empty; a failed
generation request appends the single fixed fallback bot message and
clears the loading flag; a 2xx response is streamed through
`streamLoop` and the loading flag is cleared at the end. -/
def handleSendMessage (st : ChatState) (inputValue : String)
    (ragEnabled ragAvailable : Bool) (selectedTags : List String) (now : Nat)
    (env : ChatEnv) : ChatOutcome :=
  if trimStr inputValue = "" then
    { state := st, ragQuery := none, genRequest := none }
  else
    let userMessage : ChatMessage :=
      { id := now, text := inputValue, sender := "user", sources := none }
    let messages1 := st.messages ++ [userMessage]
    let botMessageId := now + 1
    let ragQuery : Option RagQuery :=
      if ragEnabled && ragAvailable then
        some { query := inputValue,
               tags := if selectedTags.length > 0 then some selectedTags else none,
               top_k := 5 }
      else none
    let ctxSources := ragContextAndSources ragEnabled ragAvailable env.ragResp
    let finalUserContent :=
      if ctxSources.1 ≠ "" then ragPrompt ctxSources.1 inputValue else inputValue
    let outbound := toHistory st.messages ++ [{ role := "user", content := finalUserContent }]
    match env.genResp with
    | .ok lines =>
        let srcOpt := if ctxSources.2.length > 0 then some ctxSources.2 else none
        let res := streamLoop botMessageId srcOpt messages1 "" false lines
        { state := { messages := res.1, isLoading := false },
          ragQuery := ragQuery, genRequest := some outbound }
    | _ =>
        let fallbackMessage : ChatMessage :=
          { id := botMessageId, text := fallbackText, sender := "bot", sources := none }
        { state := { messages := messages1 ++ [fallbackMessage], isLoading := false },
          ragQuery := ragQuery, genRequest := some outbound }

/-- The user message `handleSendMessage` appends for input `inputValue`
at time `now`. -/
def mkUserMessage (now : Nat) (inputValue : String) : ChatMessage :=
  { id := now, text := inputValue, sender := "user", sources := none }

/-- The fixed fallback bot message with id `botId`. -/
def mkFallbackMessage (botId : Nat) : ChatMessage :=
  { id := botId, text := fallbackText, sender := "bot", sources := none }

/-- The retrieval-query body the chat component posts. -/
def mkRagQuery (inputValue : String) (selectedTags : List String) : RagQuery :=
  { query := inputValue,
    tags := if selectedTags.length > 0 then some selectedTags else none,
    top_k := 5 }

/-- A concrete record used by witnesses. -/
def demoRecord : PdfRecord :=
  { id := "pdf-1", filename := "report.pdf", storedFilename := "170-abc.pdf",
    size := 2048, tags := ["finance"], ragStatus := .processing,
    ragError := none, chunksCount := 0 }

/-- A record already in the `success` terminal state, used to test the
rechunk cache-miss behaviour. -/
def cachedRecord : PdfRecord :=
  { id := "pdf-9", filename := "notes.pdf", storedFilename := "171-def.pdf",
    size := 512, tags := [], ragStatus := .success, ragError := none,
    chunksCount := 7 }

/-- Environment in which the rechunk endpoint answers with the
cache-miss error (a non-2xx response). -/
def cacheMissEnv : RagEnv :=
  { single := .ok 3, batch := .ok { results := [] },
    rechunk := .httpError "No cached extraction found for pdf-9" }

/-- Environment in which every ingestion call succeeds. -/
def allOkEnv : RagEnv :=
  { single := .ok 3, batch := .ok { results := [] }, rechunk := .ok 3 }

/-- A concrete upload used by witnesses and the tag counterexample. -/
def demoFile : UploadFile :=
  { id := "pdf-7", filename := "dup.pdf", storedFilename := "172-ghi.pdf", size := 64 }

/-- A second concrete record, for batch witnesses. -/
def demoRecord2 : PdfRecord :=
  { id := "pdf-2", filename := "slides.pdf", storedFilename := "173-jkl.pdf",
    size := 4096, tags := [], ragStatus := .processing, ragError := none,
    chunksCount := 0 }

/-- Environment in which the Retrieval Service is unreachable. -/
def downEnv : RagEnv :=
  { single := .networkError "fetch failed",
    batch := .networkError "fetch failed",
    rechunk := .networkError "fetch failed" }

/-- A concrete chat state with one earlier exchange. -/
def demoChatState : ChatState :=
  { messages :=
      [{ id := 10, text := "hi", sender := "user", sources := none },
       { id := 11, text := "hello", sender := "bot", sources := none }],
    isLoading := false }

/-- Chat environment: retrieval down, generation streaming two lines. -/
def chatEnvRagDown : ChatEnv :=
  { ragResp := .networkError "fetch failed",
    genResp := .ok [GenLine.content "Hel", GenLine.malformed, GenLine.content "lo"] }

/-- Chat environment: generation unreachable. -/
def chatEnvGenDown : ChatEnv :=
  { ragResp := .ok { results := [] }, genResp := .networkError }

lemma findRec_updateFirst_self (db : List PdfRecord) (id : String)
    (f : PdfRecord → PdfRecord) (hid : ∀ r, (f r).id = r.id)
    (r : PdfRecord) (h : findRec db id = some r) :
    findRec (updateFirst db id f) id = some (f r) := by
  induction db with
  | nil => simp [findRec] at h
  | cons a as ih =>
      by_cases ha : a.id = id
      · rw [findRec, if_pos ha] at h
        simp only [Option.some.injEq] at h
        subst h
        rw [updateFirst, if_pos ha, findRec, if_pos ((hid a).trans ha)]
      · rw [findRec, if_neg ha] at h
        rw [updateFirst, if_neg ha, findRec, if_neg ha]
        exact ih h

lemma findRec_updateFirst_other (db : List PdfRecord) (id j : String)
    (f : PdfRecord → PdfRecord) (hid : ∀ r, (f r).id = r.id) (hne : j ≠ id) :
    findRec (updateFirst db id f) j = findRec db j := by
  induction db with
  | nil => simp [updateFirst]
  | cons a as ih =>
      by_cases ha : a.id = id
      · have haj : ¬ (f a).id = j := by
          rw [hid a, ha]; exact fun h => hne h.symm
        have haj2 : ¬ a.id = j := by rw [ha]; exact fun h => hne h.symm
        rw [updateFirst, if_pos ha, findRec, if_neg haj, findRec, if_neg haj2]
      · rw [updateFirst, if_neg ha, findRec, findRec]
        by_cases haj : a.id = j
        · rw [if_pos haj, if_pos haj]
        · rw [if_neg haj, if_neg haj]
          exact ih

lemma findRec_updateFirst_isSome (db : List PdfRecord) (id j : String)
    (f : PdfRecord → PdfRecord) (hid : ∀ r, (f r).id = r.id)
    (h : (findRec db j).isSome) : (findRec (updateFirst db id f) j).isSome := by
  by_cases hj : j = id
  · subst hj
    obtain ⟨r, hr⟩ := Option.isSome_iff_exists.mp h
    rw [findRec_updateFirst_self db j f hid r hr]
    rfl
  · rw [findRec_updateFirst_other db id j f hid hj]
    exact h

/-- C1.  Single-item ingestion: on a 2xx response the record is set to
`success` with `error` cleared and `chunksCount` equal to the returned
count; on any failure the record is set to `failed` carrying the failure
message, with `chunksCount` untouched (the record update below copies all
remaining fields of `r`, in particular `chunksCount`). -/
theorem processPdfWithRag_outcome (db : List PdfRecord) (pdf : PdfRecord)
    (resp : FetchResult Nat) (r : PdfRecord) (h : findRec db pdf.id = some r) :
    (∀ n, resp = .ok n →
      findRec (processPdfWithRag db pdf resp).1 pdf.id =
        some { r with ragStatus := .success, ragError := none, chunksCount := n }) ∧
    (∀ msg, (processPdfWithRag db pdf resp).2 = .error msg →
      findRec (processPdfWithRag db pdf resp).1 pdf.id =
        some { r with ragStatus := .failed, ragError := some msg }) := by
  constructor
  · intro n hn
    subst hn
    exact findRec_updateFirst_self db pdf.id
      (fun r => { r with ragStatus := .success, ragError := none, chunksCount := n })
      (fun _ => rfl) r h
  · intro msg hmsg
    cases resp with
    | ok chunks => simp [processPdfWithRag] at hmsg
    | networkError m =>
        simp only [processPdfWithRag, Except.error.injEq] at hmsg
        subst hmsg
        exact findRec_updateFirst_self db pdf.id
          (fun r => { r with ragStatus := .failed, ragError := some m })
          (fun _ => rfl) r h
    | httpError b =>
        simp only [processPdfWithRag, Except.error.injEq] at hmsg
        subst hmsg
        exact findRec_updateFirst_self db pdf.id
          (fun r => { r with ragStatus := .failed, ragError := some ("RAG service error: " ++ b) })
          (fun _ => rfl) r h
    | malformedJson m =>
        simp only [processPdfWithRag, Except.error.injEq] at hmsg
        subst hmsg
        exact findRec_updateFirst_self db pdf.id
          (fun r => { r with ragStatus := .failed, ragError := some m })
          (fun _ => rfl) r h

/-- Witness for C1 at a concrete store: a successful call returns the
record in `success` state with the returned chunk count. -/
theorem processPdfWithRag_outcome_witness :
    findRec [demoRecord] demoRecord.id = some demoRecord ∧
    findRec (processPdfWithRag [demoRecord] demoRecord (.ok 5)).1 demoRecord.id =
      some { demoRecord with ragStatus := .success, ragError := none, chunksCount := 5 } :=
  ⟨by decide,
   (processPdfWithRag_outcome [demoRecord] demoRecord (.ok 5) demoRecord (by decide)).1
     5 rfl⟩

lemma markAllFailed_preserves_marked (pdfs : List PdfRecord) (db : List PdfRecord)
    (msg : String) (j : String) (r : PdfRecord) (hr : findRec db j = some r)
    (hs : r.ragStatus = .failed) (he : r.ragError = some msg) :
    ∃ r2, findRec (markAllFailed db pdfs msg) j = some r2 ∧
      r2.ragStatus = .failed ∧ r2.ragError = some msg := by
  induction pdfs generalizing db r with
  | nil => exact ⟨r, hr, hs, he⟩
  | cons q qs ih =>
      rw [markAllFailed]
      by_cases hj : j = q.id
      · subst hj
        have h2 := findRec_updateFirst_self db q.id (markFailed msg) (fun _ => rfl) r hr
        exact ih _ (markFailed msg r) h2 rfl rfl
      · have h2 := findRec_updateFirst_other db q.id j (markFailed msg) (fun _ => rfl) hj
        exact ih _ r (h2.trans hr) hs he

lemma markAllFailed_marks (pdfs : List PdfRecord) (db : List PdfRecord)
    (msg : String) (p : PdfRecord) (hp : p ∈ pdfs)
    (h : (findRec db p.id).isSome) :
    ∃ r2, findRec (markAllFailed db pdfs msg) p.id = some r2 ∧
      r2.ragStatus = .failed ∧ r2.ragError = some msg := by
  induction pdfs generalizing db with
  | nil => cases hp
  | cons q qs ih =>
      rw [markAllFailed]
      rcases List.mem_cons.mp hp with hpq | hpqs
      · obtain ⟨r, hr⟩ := Option.isSome_iff_exists.mp h
        have h2 := findRec_updateFirst_self db q.id (markFailed msg) (fun _ => rfl) r
          (hpq ▸ hr)
        exact markAllFailed_preserves_marked qs _ msg p.id (markFailed msg r)
          (hpq ▸ h2) rfl rfl
      · exact ih _ hpqs
          (findRec_updateFirst_isSome db q.id p.id (markFailed msg) (fun _ => rfl) h)

/-- C2.  When the whole remote call of a non-empty batch fails (service
unreachable, non-2xx, or a malformed response body), every record of the
batch that is present in the store ends up `failed` carrying the one
shared error message; none is dropped or left `processing`. -/
theorem batchFailureMarksAll (db pdfs : List PdfRecord) (env : RagEnv)
    (msg : String) (hne : pdfs ≠ [])
    (hpresent : ∀ p ∈ pdfs, (findRec db p.id).isSome)
    (hfail : (processPdfsWithRagBatch db pdfs env).2 = .error msg) :
    ∀ p ∈ pdfs, ∃ r2,
      findRec (processPdfsWithRagBatch db pdfs env).1 p.id = some r2 ∧
      r2.ragStatus = .failed ∧ r2.ragError = some msg := by
  match pdfs with
  | [] => exact absurd rfl hne
  | [pdf] =>
      intro p hp
      rw [List.mem_singleton] at hp
      subst hp
      have hpres := hpresent p (List.mem_singleton.mpr rfl)
      obtain ⟨r, hr⟩ := Option.isSome_iff_exists.mp hpres
      cases hs : env.single with
      | ok n =>
          rw [processPdfsWithRagBatch] at hfail
          simp [hs, processPdfWithRag, Except.map] at hfail
      | networkError m =>
          rw [processPdfsWithRagBatch] at hfail
          simp only [hs, processPdfWithRag, Except.map, Except.error.injEq] at hfail
          subst hfail
          refine ⟨markFailed m r, ?_, rfl, rfl⟩
          show findRec (processPdfsWithRagBatch db [p] env).1 p.id = _
          rw [processPdfsWithRagBatch]
          simp only [hs, processPdfWithRag]
          exact findRec_updateFirst_self db p.id
            (fun r => { r with ragStatus := .failed, ragError := some m })
            (fun _ => rfl) r hr
      | httpError b =>
          rw [processPdfsWithRagBatch] at hfail
          simp only [hs, processPdfWithRag, Except.map, Except.error.injEq] at hfail
          subst hfail
          refine ⟨markFailed ("RAG service error: " ++ b) r, ?_, rfl, rfl⟩
          show findRec (processPdfsWithRagBatch db [p] env).1 p.id = _
          rw [processPdfsWithRagBatch]
          simp only [hs, processPdfWithRag]
          exact findRec_updateFirst_self db p.id
            (fun r => { r with ragStatus := .failed, ragError := some ("RAG service error: " ++ b) })
            (fun _ => rfl) r hr
      | malformedJson m =>
          rw [processPdfsWithRagBatch] at hfail
          simp only [hs, processPdfWithRag, Except.map, Except.error.injEq] at hfail
          subst hfail
          refine ⟨markFailed m r, ?_, rfl, rfl⟩
          show findRec (processPdfsWithRagBatch db [p] env).1 p.id = _
          rw [processPdfsWithRagBatch]
          simp only [hs, processPdfWithRag]
          exact findRec_updateFirst_self db p.id
            (fun r => { r with ragStatus := .failed, ragError := some m })
            (fun _ => rfl) r hr
  | p1 :: p2 :: rest =>
      intro p hp
      cases hb : env.batch with
      | ok result =>
          rw [processPdfsWithRagBatch] at hfail
          simp [hb] at hfail
      | networkError m =>
          rw [processPdfsWithRagBatch] at hfail
          simp only [hb, Except.error.injEq] at hfail
          subst hfail
          simp only [processPdfsWithRagBatch, hb]
          exact markAllFailed_marks (p1 :: p2 :: rest) db m p hp (hpresent p hp)
      | httpError b =>
          rw [processPdfsWithRagBatch] at hfail
          simp only [hb, Except.error.injEq] at hfail
          subst hfail
          simp only [processPdfsWithRagBatch, hb]
          exact markAllFailed_marks (p1 :: p2 :: rest) db
            ("RAG batch service error: " ++ b) p hp (hpresent p hp)
      | malformedJson m =>
          rw [processPdfsWithRagBatch] at hfail
          simp only [hb, Except.error.injEq] at hfail
          subst hfail
          simp only [processPdfsWithRagBatch, hb]
          exact markAllFailed_marks (p1 :: p2 :: rest) db m p hp (hpresent p hp)

/-- Witness for C2: two uploads, Retrieval Service unreachable — the
batch call fails and the first record is found `failed` with the shared
message. -/
theorem batchFailureMarksAll_witness :
    ([demoRecord, demoRecord2] : List PdfRecord) ≠ [] ∧
    (∀ p ∈ [demoRecord, demoRecord2],
      (findRec [demoRecord, demoRecord2] p.id).isSome) ∧
    (processPdfsWithRagBatch [demoRecord, demoRecord2] [demoRecord, demoRecord2]
      downEnv).2 = .error "fetch failed" ∧
    ∃ r2, findRec (processPdfsWithRagBatch [demoRecord, demoRecord2]
        [demoRecord, demoRecord2] downEnv).1 demoRecord.id = some r2 ∧
      r2.ragStatus = .failed ∧ r2.ragError = some "fetch failed" :=
  ⟨by decide, by decide, by rfl,
   batchFailureMarksAll [demoRecord, demoRecord2] [demoRecord, demoRecord2]
     downEnv "fetch failed" (by decide) (by decide) (by rfl)
     demoRecord (by decide)⟩

/-- C9.  A batch of exactly one record is processed through the
single-item path: the store, the settled value and even the event trace
(the endpoint contacted) coincide with a direct single-item invocation on
that record — all three equalities hold definitionally because
`processPdfsWithRagBatch` delegates. -/
theorem singletonBatchUsesSinglePath (db : List PdfRecord) (p : PdfRecord)
    (env : RagEnv) :
    (processPdfsWithRagBatch db [p] env).1 = (processPdfWithRag db p env.single).1 ∧
    (processPdfsWithRagBatch db [p] env).2 =
      (processPdfWithRag db p env.single).2.map (fun _ => ()) ∧
    processPdfsWithRagBatchTrace db [p] env = processPdfWithRagTrace db p env.single :=
  ⟨rfl, rfl, rfl⟩

/-- C10.  The capability-config endpoint answers 200 with the built-in
default configuration whenever the live fetch fails in any way. -/
theorem configEndpointFallsBack (resp : FetchResult RagConfig)
    (h : ∀ c, resp ≠ .ok c) : configEndpoint resp = (200, defaultRagConfig) := by
  cases resp with
  | ok c => exact absurd rfl (h c)
  | networkError m => rfl
  | httpError b => rfl
  | malformedJson m => rfl

/-- Witness for C10 with the Retrieval Service unreachable. -/
theorem configEndpointFallsBack_witness :
    (∀ c, (FetchResult.networkError "fetch failed" : FetchResult RagConfig) ≠ .ok c) ∧
    configEndpoint (.networkError "fetch failed") = (200, defaultRagConfig) :=
  ⟨fun _ h => FetchResult.noConfusion h,
   configEndpointFallsBack (.networkError "fetch failed")
     (fun _ h => FetchResult.noConfusion h)⟩

/-- C3 counterexample: `cachedRecord` is in the terminal `success` state;
a rechunk-only reprocess that hits a Retrieval-Service cache miss does
not leave that status untouched — the record ends `failed`. -/
theorem rechunkCacheMissFlipsStatus :
    (findRec [cachedRecord] "pdf-9").map PdfRecord.ragStatus = some RagStatus.success ∧
    (findRec (reprocessEndpoint [cachedRecord] "pdf-9" true cacheMissEnv) "pdf-9").map
      PdfRecord.ragStatus = some RagStatus.failed := by
  decide

/-- C3 amended: a rechunk-only reprocess that hits a cache miss fails
fast with the distinguishable error surfaced from the Retrieval Service:
the record (first reset to `processing`) ends `failed` with the
cache-miss message recorded and its chunk count untouched; it is not left
`processing`, and its prior terminal status is overwritten rather than
preserved. -/
theorem rechunkCacheMissFailsFast (db : List PdfRecord) (id : String)
    (env : RagEnv) (body : String) (r : PdfRecord)
    (hr : findRec db id = some r) (hmiss : env.rechunk = .httpError body) :
    ∃ r2, findRec (reprocessEndpoint db id true env) id = some r2 ∧
      r2.ragStatus = .failed ∧
      r2.ragError = some ("RAG service error: " ++ body) ∧
      r2.chunksCount = r.chunksCount := by
  have h1 := findRec_updateFirst_self db id
    (fun r => { r with ragStatus := .processing, ragError := none })
    (fun _ => rfl) r hr
  have h2 := findRec_updateFirst_self
    (updateFirst db id fun r => { r with ragStatus := .processing, ragError := none })
    id (markFailed ("RAG service error: " ++ body)) (fun _ => rfl) _ h1
  refine ⟨markFailed ("RAG service error: " ++ body)
    { r with ragStatus := .processing, ragError := none }, ?_, rfl, rfl, rfl⟩
  simp only [reprocessEndpoint, hr, if_true, rechunkPdf, hmiss]
  exact h2

/-- Witness for the amended C3 at the concrete cached record. -/
theorem rechunkCacheMissFailsFast_witness :
    findRec [cachedRecord] "pdf-9" = some cachedRecord ∧
    cacheMissEnv.rechunk = .httpError "No cached extraction found for pdf-9" ∧
    ∃ r2, findRec (reprocessEndpoint [cachedRecord] "pdf-9" true cacheMissEnv)
        "pdf-9" = some r2 ∧
      r2.ragStatus = .failed ∧
      r2.ragError = some ("RAG service error: " ++ "No cached extraction found for pdf-9") ∧
      r2.chunksCount = cachedRecord.chunksCount :=
  ⟨by decide, by decide,
   rechunkCacheMissFailsFast [cachedRecord] "pdf-9" cacheMissEnv
     "No cached extraction found for pdf-9" cachedRecord (by decide) (by decide)⟩

lemma netCallsAfterProcessingPersist_of_seen (id : String) (tr : List Event) :
    netCallsAfterProcessingPersist id true tr = true := by
  induction tr with
  | nil => rfl
  | cons e rest ih =>
      cases e with
      | persist db => simpa [netCallsAfterProcessingPersist] using ih
      | netCall s => simpa [netCallsAfterProcessingPersist] using ih

lemma findRec_append_of_fresh (db l : List PdfRecord) (j : String)
    (hfresh : ∀ r ∈ db, r.id ≠ j) : findRec (db ++ l) j = findRec l j := by
  induction db with
  | nil => rfl
  | cons a as ih =>
      have ha : ¬ a.id = j := hfresh a (List.mem_cons_self a as)
      rw [List.cons_append, findRec, if_neg ha]
      exact ih fun r hr => hfresh r (List.mem_cons_of_mem a hr)

lemma findRec_map_mkPdfData (files : List UploadFile) (tags : List String)
    (j : String) (h : ∃ g ∈ files, g.id = j) :
    ∃ g, findRec (files.map (mkPdfData tags)) j = some (mkPdfData tags g) := by
  induction files with
  | nil => simp at h
  | cons g gs ih =>
      by_cases hg : g.id = j
      · exact ⟨g, by
          rw [List.map_cons, findRec, if_pos (show (mkPdfData tags g).id = j from hg)]⟩
      · obtain ⟨g2, hg2, hgj⟩ := h
        rcases List.mem_cons.mp hg2 with heq | hmem
        · exact absurd (heq ▸ hgj) hg
        · obtain ⟨g3, hg3⟩ := ih ⟨g2, hmem, hgj⟩
          exact ⟨g3, by
            rw [List.map_cons, findRec,
              if_neg (show ¬ (mkPdfData tags g).id = j from hg)]
            exact hg3⟩

/-- C4.  Both ingestion triggers persist the record in the `processing`
state before any network call to the Retrieval Service: the upload
handler pushes all records as `processing` and saves before the batch
task starts, and the reprocess endpoint resets the record to
`processing` and saves before deleting/reprocessing — so in either event
trace every network call is preceded by a persist showing the record as
`processing`. -/
theorem processingPersistedBeforeNetwork (db : List PdfRecord)
    (files : List UploadFile) (tagsField : String) (env : RagEnv)
    (f : UploadFile) (rid : String) (ro : Bool) (hf : f ∈ files)
    (hfresh : ∀ r ∈ db, r.id ≠ f.id) :
    netCallsAfterProcessingPersist f.id false
      (uploadEndpoint db files tagsField env).2 = true ∧
    netCallsAfterProcessingPersist rid false
      (reprocessEndpointTrace db rid ro env) = true := by
  constructor
  · cases files with
    | nil => cases hf
    | cons g gs =>
        obtain ⟨g2, hg2⟩ := findRec_map_mkPdfData (g :: gs) (parseTags tagsField)
          f.id ⟨f, hf, rfl⟩
        have hstat : statusIsProcessing
            (db ++ (g :: gs).map (mkPdfData (parseTags tagsField))) f.id = true := by
          rw [statusIsProcessing,
            findRec_append_of_fresh db _ f.id hfresh, hg2]
          rfl
        show netCallsAfterProcessingPersist f.id false
          (Event.persist (db ++ (g :: gs).map (mkPdfData (parseTags tagsField))) ::
            processPdfsWithRagBatchTrace _ _ env) = true
        rw [netCallsAfterProcessingPersist, hstat]
        exact netCallsAfterProcessingPersist_of_seen f.id _
  · cases hcase : findRec db rid with
    | none => simp [reprocessEndpointTrace, hcase, netCallsAfterProcessingPersist]
    | some pdf =>
        have h1 := findRec_updateFirst_self db rid
          (fun r => { r with ragStatus := .processing, ragError := none })
          (fun _ => rfl) pdf hcase
        have hstat : statusIsProcessing
            (updateFirst db rid fun r =>
              { r with ragStatus := .processing, ragError := none }) rid = true := by
          rw [statusIsProcessing, h1]
          rfl
        simp only [reprocessEndpointTrace, hcase]
        rw [netCallsAfterProcessingPersist, hstat]
        rw [Bool.false_or, netCallsAfterProcessingPersist]
        rw [Bool.true_and]
        exact netCallsAfterProcessingPersist_of_seen rid _

/-- Witness for C4: one fresh upload and one reprocess of an existing
record, with the Retrieval Service reachable. -/
theorem processingPersistedBeforeNetwork_witness :
    demoFile ∈ [demoFile] ∧ (∀ r ∈ [demoRecord], r.id ≠ demoFile.id) ∧
    netCallsAfterProcessingPersist demoFile.id false
      (uploadEndpoint [demoRecord] [demoFile] "math" allOkEnv).2 = true ∧
    netCallsAfterProcessingPersist "pdf-1" false
      (reprocessEndpointTrace [demoRecord] "pdf-1" false allOkEnv) = true := by
  refine ⟨List.mem_singleton.mpr rfl, by decide, ?_⟩
  exact processingPersistedBeforeNetwork [demoRecord] [demoFile] "math" allOkEnv
    demoFile "pdf-1" false (List.mem_singleton.mpr rfl) (by decide)

/-- C8 counterexample: uploading one file with the tag field `"a, a"`
stores the tag list `["a", "a"]`, which contains a duplicate — neither
the upload parser nor the store collapses duplicates. -/
theorem uploadTagsKeepDuplicates :
    (findRec (uploadEndpoint [] [demoFile] "a, a" allOkEnv).1 "pdf-7").map
      PdfRecord.tags = some ["a", "a"] ∧
    ¬ (["a", "a"] : List String).Nodup := by
  constructor
  · rfl
  · decide

lemma findRec_tags_updateFirst (db : List PdfRecord) (i j : String)
    (f : PdfRecord → PdfRecord) (hid : ∀ r, (f r).id = r.id)
    (htags : ∀ r, (f r).tags = r.tags) :
    (findRec (updateFirst db i f) j).map PdfRecord.tags =
      (findRec db j).map PdfRecord.tags := by
  induction db with
  | nil => rfl
  | cons a as ih =>
      by_cases ha : a.id = i
      · rw [updateFirst, if_pos ha]
        by_cases haj : a.id = j
        · rw [findRec, if_pos ((hid a).trans haj), findRec, if_pos haj]
          simp [htags a]
        · rw [findRec, if_neg (fun hc => haj ((hid a) ▸ hc)), findRec, if_neg haj]
      · rw [updateFirst, if_neg ha, findRec, findRec]
        by_cases haj : a.id = j
        · rw [if_pos haj, if_pos haj]
        · rw [if_neg haj, if_neg haj]
          exact ih

lemma tags_processPdfWithRag (db : List PdfRecord) (pdf : PdfRecord)
    (resp : FetchResult Nat) (j : String) :
    (findRec (processPdfWithRag db pdf resp).1 j).map PdfRecord.tags =
      (findRec db j).map PdfRecord.tags := by
  cases resp with
  | ok n =>
      exact findRec_tags_updateFirst db pdf.id j _ (fun _ => rfl) (fun _ => rfl)
  | networkError m =>
      exact findRec_tags_updateFirst db pdf.id j _ (fun _ => rfl) (fun _ => rfl)
  | httpError b =>
      exact findRec_tags_updateFirst db pdf.id j _ (fun _ => rfl) (fun _ => rfl)
  | malformedJson m =>
      exact findRec_tags_updateFirst db pdf.id j _ (fun _ => rfl) (fun _ => rfl)

lemma tags_markAllFailed (pdfs db : List PdfRecord) (msg : String) (j : String) :
    (findRec (markAllFailed db pdfs msg) j).map PdfRecord.tags =
      (findRec db j).map PdfRecord.tags := by
  induction pdfs generalizing db with
  | nil => rfl
  | cons p ps ih =>
      rw [markAllFailed]
      exact (ih _).trans
        (findRec_tags_updateFirst db p.id j (markFailed msg) (fun _ => rfl) (fun _ => rfl))

lemma tags_applyBatchItems (items : List BatchItemResult) (db : List PdfRecord)
    (j : String) :
    (findRec (items.foldl applyBatchItem db) j).map PdfRecord.tags =
      (findRec db j).map PdfRecord.tags := by
  induction items generalizing db with
  | nil => rfl
  | cons item rest ih =>
      rw [List.foldl_cons]
      refine (ih _).trans ?_
      refine findRec_tags_updateFirst db item.pdf_id j _ ?_ ?_
      · intro r
        by_cases h : item.success <;> simp [h]
      · intro r
        by_cases h : item.success <;> simp [h]

lemma tags_processPdfsWithRagBatch (db pdfs : List PdfRecord) (env : RagEnv)
    (j : String) :
    (findRec (processPdfsWithRagBatch db pdfs env).1 j).map PdfRecord.tags =
      (findRec db j).map PdfRecord.tags := by
  match pdfs with
  | [] => rfl
  | [pdf] => exact tags_processPdfWithRag db pdf env.single j
  | p1 :: p2 :: rest =>
      cases hb : env.batch with
      | ok result =>
          simp only [processPdfsWithRagBatch, hb]
          exact tags_applyBatchItems result.results db j
      | networkError m =>
          simp only [processPdfsWithRagBatch, hb]
          exact tags_markAllFailed (p1 :: p2 :: rest) db m j
      | httpError b =>
          simp only [processPdfsWithRagBatch, hb]
          exact tags_markAllFailed (p1 :: p2 :: rest) db _ j
      | malformedJson m =>
          simp only [processPdfsWithRagBatch, hb]
          exact tags_markAllFailed (p1 :: p2 :: rest) db m j

/-- C8 amended: upload tag parsing trims entries and drops empty ones but
does not collapse duplicates — the stored list is exactly
`parseTags tagsField` (and ingestion never rewrites it); the update-tags
endpoint stores the caller-supplied list verbatim, duplicates included. -/
theorem storedTagsAreVerbatim (db : List PdfRecord) (files : List UploadFile)
    (tagsField : String) (env : RagEnv) (f : UploadFile) (hf : f ∈ files)
    (hfresh : ∀ r ∈ db, r.id ≠ f.id) :
    ((findRec (uploadEndpoint db files tagsField env).1 f.id).map PdfRecord.tags
        = some (parseTags tagsField) ∧
      ∀ t ∈ parseTags tagsField, t ≠ "") ∧
    ∀ (db2 : List PdfRecord) (id : String) (ts : List String) (r : PdfRecord),
      findRec db2 id = some r →
      (findRec (updateTagsEndpoint db2 id (some ts)) id).map PdfRecord.tags
        = some ts := by
  constructor
  · constructor
    · cases files with
      | nil => cases hf
      | cons g gs =>
          obtain ⟨g2, hg2⟩ := findRec_map_mkPdfData (g :: gs) (parseTags tagsField)
            f.id ⟨f, hf, rfl⟩
          show (findRec (processPdfsWithRagBatch
              (db ++ (g :: gs).map (mkPdfData (parseTags tagsField)))
              ((g :: gs).map (mkPdfData (parseTags tagsField))) env).1 f.id).map
            PdfRecord.tags = some (parseTags tagsField)
          rw [tags_processPdfsWithRagBatch,
            findRec_append_of_fresh db _ f.id hfresh, hg2]
          rfl
    · intro t ht
      rw [parseTags] at ht
      by_cases hs : tagsField = ""
      · rw [if_pos hs] at ht
        cases ht
      · rw [if_neg hs] at ht
        have := List.of_mem_filter ht
        simpa using this
  · intro db2 id ts r hr
    have h1 := findRec_updateFirst_self db2 id (fun r => { r with tags := ts })
      (fun _ => rfl) r hr
    simp only [updateTagsEndpoint, hr, Option.getD_some]
    rw [h1]
    rfl

/-- Witness for the amended C8: a two-tag upload and a verbatim
duplicate-tag update. -/
theorem storedTagsAreVerbatim_witness :
    demoFile ∈ [demoFile] ∧
    ((findRec (uploadEndpoint [] [demoFile] "a, b" allOkEnv).1 demoFile.id).map
        PdfRecord.tags = some (parseTags "a, b") ∧
      ∀ t ∈ parseTags "a, b", t ≠ "") ∧
    (findRec (updateTagsEndpoint [demoRecord] "pdf-1" (some ["x", "x"]))
        "pdf-1").map PdfRecord.tags = some ["x", "x"] :=
  ⟨List.mem_singleton.mpr rfl,
   (storedTagsAreVerbatim [] [demoFile] "a, b" allOkEnv demoFile
      (List.mem_singleton.mpr rfl) (by decide)).1,
   (storedTagsAreVerbatim [] [demoFile] "a, b" allOkEnv demoFile
      (List.mem_singleton.mpr rfl) (by decide)).2
     [demoRecord] "pdf-1" ["x", "x"] demoRecord (by decide)⟩

/-- C5.  If the generation request fails (connection refused or non-2xx),
exactly one fixed fallback bot message is appended after the user message
and the loading flag ends cleared — the turn is neither left pending nor
given several fallback messages. -/
theorem genFailureSingleFallback (st : ChatState) (inputValue : String)
    (re ra : Bool) (selectedTags : List String) (now : Nat) (env : ChatEnv)
    (hin : trimStr inputValue ≠ "")
    (hgen : env.genResp = .networkError ∨ env.genResp = .httpError) :
    (handleSendMessage st inputValue re ra selectedTags now env).state.messages =
      st.messages ++
        [{ id := now, text := inputValue, sender := "user", sources := none },
         { id := now + 1, text := fallbackText, sender := "bot", sources := none }] ∧
    (handleSendMessage st inputValue re ra selectedTags now env).state.isLoading
      = false := by
  rcases hgen with h | h <;>
    simp [handleSendMessage, if_neg hin, h]

/-- Witness for C5: a concrete turn against an unreachable Generation
Service. -/
theorem genFailureSingleFallback_witness :
    trimStr "Hi there" ≠ "" ∧
    (handleSendMessage demoChatState "Hi there" true true [] 20
        chatEnvGenDown).state.messages =
      demoChatState.messages ++
        [{ id := 20, text := "Hi there", sender := "user", sources := none },
         { id := 21, text := fallbackText, sender := "bot", sources := none }] ∧
    (handleSendMessage demoChatState "Hi there" true true [] 20
        chatEnvGenDown).state.isLoading = false :=
  ⟨by decide,
   genFailureSingleFallback demoChatState "Hi there" true true [] 20
     chatEnvGenDown (by decide) (Or.inl rfl)⟩

lemma streamLoop_mem (botId : Nat) (srcOpt : Option (List Source))
    (lines : List GenLine) :
    ∀ (msgs : List ChatMessage) (ft : String) (c : Bool),
      (∀ m ∈ msgs, m.id = botId → m.sources = srcOpt) →
      ∀ m ∈ (streamLoop botId srcOpt msgs ft c lines).1,
        m ∈ msgs ∨ m.sources = srcOpt := by
  induction lines with
  | nil =>
      intro msgs ft c hbase m hm
      exact Or.inl hm
  | cons line rest ih =>
      intro msgs ft c hbase m hm
      cases line with
      | malformed =>
          rw [streamLoop] at hm
          exact ih msgs ft c hbase m hm
      | content s =>
          rw [streamLoop] at hm
          by_cases hs : s = ""
          · rw [if_pos hs] at hm
            exact ih msgs ft c hbase m hm
          · rw [if_neg hs] at hm
            cases c with
            | true =>
                simp only [if_true] at hm
                have hbase2 : ∀ m2 ∈ msgs.map (fun m2 =>
                    if m2.id = botId then { m2 with text := ft ++ s } else m2),
                    m2.id = botId → m2.sources = srcOpt := by
                  intro m2 hm2 hid2
                  obtain ⟨m0, hm0, hm0eq⟩ := List.mem_map.mp hm2
                  by_cases h0 : m0.id = botId
                  · rw [← hm0eq, if_pos h0]
                    exact hbase m0 hm0 h0
                  · rw [← hm0eq, if_neg h0]
                    rw [← hm0eq, if_neg h0] at hid2
                    exact absurd hid2 h0
                rcases ih _ _ _ hbase2 m hm with hmem | hsrc
                · obtain ⟨m0, hm0, hm0eq⟩ := List.mem_map.mp hmem
                  by_cases h0 : m0.id = botId
                  · right
                    rw [← hm0eq, if_pos h0]
                    exact hbase m0 hm0 h0
                  · left
                    rw [← hm0eq, if_neg h0]
                    exact hm0
                · exact Or.inr hsrc
            | false =>
                simp only [Bool.false_eq_true, if_false] at hm
                have hbase2 : ∀ m2 ∈ msgs ++
                    [{ id := botId, text := ft ++ s, sender := "bot",
                       sources := srcOpt }],
                    m2.id = botId → m2.sources = srcOpt := by
                  intro m2 hm2 hid2
                  rcases List.mem_append.mp hm2 with h2 | h2
                  · exact hbase m2 h2 hid2
                  · rw [List.mem_singleton.mp h2]
                rcases ih _ _ _ hbase2 m hm with hmem | hsrc
                · rcases List.mem_append.mp hmem with h2 | h2
                  · exact Or.inl h2
                  · right
                    rw [List.mem_singleton.mp h2]
                · exact Or.inr hsrc

/-- C6.  With RAG disabled the turn issues no retrieval query, sends the
prior history plus the user message verbatim (no context wrapper) to the
Generation Service, and every message added to the conversation carries
no citations. -/
theorem ragDisabledUnaugmented (st : ChatState) (inputValue : String)
    (ra : Bool) (selectedTags : List String) (now : Nat) (env : ChatEnv)
    (hin : trimStr inputValue ≠ "")
    (hfresh : ∀ m ∈ st.messages, m.id ≠ now + 1) :
    (handleSendMessage st inputValue false ra selectedTags now env).ragQuery
      = none ∧
    (handleSendMessage st inputValue false ra selectedTags now env).genRequest
      = some (toHistory st.messages ++ [{ role := "user", content := inputValue }]) ∧
    ∀ m ∈ (handleSendMessage st inputValue false ra selectedTags now
        env).state.messages, m ∈ st.messages ∨ m.sources = none := by
  cases hg : env.genResp with
  | ok lines =>
      have key : handleSendMessage st inputValue false ra selectedTags now env =
          { state :=
              { messages := (streamLoop (now + 1) none
                  (st.messages ++ [mkUserMessage now inputValue]) "" false lines).1,
                isLoading := false },
            ragQuery := none,
            genRequest := some (toHistory st.messages ++
              [{ role := "user", content := inputValue }]) } := by
        rw [handleSendMessage, if_neg hin, hg]
        rfl
      rw [key]
      refine ⟨rfl, rfl, ?_⟩
      intro m hm
      have hbase : ∀ m2 ∈ st.messages ++ [mkUserMessage now inputValue],
          m2.id = now + 1 → m2.sources = none := by
        intro m2 hm2 hid2
        rcases List.mem_append.mp hm2 with h2 | h2
        · exact absurd hid2 (hfresh m2 h2)
        · rw [List.mem_singleton.mp h2]
          rfl
      rcases streamLoop_mem (now + 1) none lines _ "" false hbase m hm with h | h
      · rcases List.mem_append.mp h with h2 | h2
        · exact Or.inl h2
        · right
          rw [List.mem_singleton.mp h2]
          rfl
      · exact Or.inr h
  | networkError =>
      have key : handleSendMessage st inputValue false ra selectedTags now env =
          { state :=
              { messages := (st.messages ++ [mkUserMessage now inputValue]) ++
                  [mkFallbackMessage (now + 1)],
                isLoading := false },
            ragQuery := none,
            genRequest := some (toHistory st.messages ++
              [{ role := "user", content := inputValue }]) } := by
        rw [handleSendMessage, if_neg hin, hg]
        rfl
      rw [key]
      refine ⟨rfl, rfl, ?_⟩
      intro m hm
      rcases List.mem_append.mp hm with h2 | h2
      · rcases List.mem_append.mp h2 with h3 | h3
        · exact Or.inl h3
        · right
          rw [List.mem_singleton.mp h3]
          rfl
      · right
        rw [List.mem_singleton.mp h2]
        rfl
  | httpError =>
      have key : handleSendMessage st inputValue false ra selectedTags now env =
          { state :=
              { messages := (st.messages ++ [mkUserMessage now inputValue]) ++
                  [mkFallbackMessage (now + 1)],
                isLoading := false },
            ragQuery := none,
            genRequest := some (toHistory st.messages ++
              [{ role := "user", content := inputValue }]) } := by
        rw [handleSendMessage, if_neg hin, hg]
        rfl
      rw [key]
      refine ⟨rfl, rfl, ?_⟩
      intro m hm
      rcases List.mem_append.mp hm with h2 | h2
      · rcases List.mem_append.mp h2 with h3 | h3
        · exact Or.inl h3
        · right
          rw [List.mem_singleton.mp h3]
          rfl
      · right
        rw [List.mem_singleton.mp h2]
        rfl

/-- Witness for C6: a concrete disabled-RAG turn with a streamed reply. -/
theorem ragDisabledUnaugmented_witness :
    trimStr "Hello" ≠ "" ∧
    (handleSendMessage demoChatState "Hello" false true [] 20
        chatEnvRagDown).ragQuery = none ∧
    (handleSendMessage demoChatState "Hello" false true [] 20
        chatEnvRagDown).genRequest =
      some (toHistory demoChatState.messages ++
        [{ role := "user", content := "Hello" }]) ∧
    ∀ m ∈ (handleSendMessage demoChatState "Hello" false true [] 20
        chatEnvRagDown).state.messages,
      m ∈ demoChatState.messages ∨ m.sources = none :=
  ⟨by decide,
   ragDisabledUnaugmented demoChatState "Hello" true [] 20 chatEnvRagDown
     (by decide) (by decide)⟩

/-- C7.  With RAG enabled and available, a failed retrieval query
(rejected fetch, non-2xx response, or malformed body) is non-fatal: the
whole turn behaves exactly as a successful query with zero hits — in
particular the generation request is still issued with the user's
unaugmented message, and the loading flag ends cleared whatever the
generation outcome, so the user-visible reply is never blocked. -/
theorem ragFailureActsAsZeroHits (st : ChatState) (inputValue : String)
    (selectedTags : List String) (now : Nat) (env : ChatEnv)
    (hin : trimStr inputValue ≠ "")
    (hrag : ∀ d, env.ragResp ≠ .ok d) :
    handleSendMessage st inputValue true true selectedTags now env =
      handleSendMessage st inputValue true true selectedTags now
        { ragResp := .ok { results := [] }, genResp := env.genResp } ∧
    (handleSendMessage st inputValue true true selectedTags now env).genRequest =
      some (toHistory st.messages ++ [{ role := "user", content := inputValue }]) ∧
    (handleSendMessage st inputValue true true selectedTags now
      env).state.isLoading = false := by
  have hctx : ragContextAndSources true true env.ragResp = ("", []) := by
    cases hr : env.ragResp with
    | ok d => exact absurd hr (hrag d)
    | networkError m => rfl
    | httpError b => rfl
    | malformedJson m => rfl
  cases hg : env.genResp with
  | ok lines =>
      have key : handleSendMessage st inputValue true true selectedTags now env =
          { state :=
              { messages := (streamLoop (now + 1) none
                  (st.messages ++ [mkUserMessage now inputValue]) "" false lines).1,
                isLoading := false },
            ragQuery := some (mkRagQuery inputValue selectedTags),
            genRequest := some (toHistory st.messages ++
              [{ role := "user", content := inputValue }]) } := by
        rw [handleSendMessage, if_neg hin, hctx, hg]
        rfl
      have key2 : handleSendMessage st inputValue true true selectedTags now
          { ragResp := .ok { results := [] }, genResp := GenResp.ok lines } =
          { state :=
              { messages := (streamLoop (now + 1) none
                  (st.messages ++ [mkUserMessage now inputValue]) "" false lines).1,
                isLoading := false },
            ragQuery := some (mkRagQuery inputValue selectedTags),
            genRequest := some (toHistory st.messages ++
              [{ role := "user", content := inputValue }]) } := by
        rw [handleSendMessage, if_neg hin]
        rfl
      exact ⟨key.trans key2.symm, by rw [key], by rw [key]⟩
  | networkError =>
      have key : handleSendMessage st inputValue true true selectedTags now env =
          { state :=
              { messages := (st.messages ++ [mkUserMessage now inputValue]) ++
                  [mkFallbackMessage (now + 1)],
                isLoading := false },
            ragQuery := some (mkRagQuery inputValue selectedTags),
            genRequest := some (toHistory st.messages ++
              [{ role := "user", content := inputValue }]) } := by
        rw [handleSendMessage, if_neg hin, hctx, hg]
        rfl
      have key2 : handleSendMessage st inputValue true true selectedTags now
          { ragResp := .ok { results := [] }, genResp := GenResp.networkError } =
          { state :=
              { messages := (st.messages ++ [mkUserMessage now inputValue]) ++
                  [mkFallbackMessage (now + 1)],
                isLoading := false },
            ragQuery := some (mkRagQuery inputValue selectedTags),
            genRequest := some (toHistory st.messages ++
              [{ role := "user", content := inputValue }]) } := by
        rw [handleSendMessage, if_neg hin]
        rfl
      exact ⟨key.trans key2.symm, by rw [key], by rw [key]⟩
  | httpError =>
      have key : handleSendMessage st inputValue true true selectedTags now env =
          { state :=
              { messages := (st.messages ++ [mkUserMessage now inputValue]) ++
                  [mkFallbackMessage (now + 1)],
                isLoading := false },
            ragQuery := some (mkRagQuery inputValue selectedTags),
            genRequest := some (toHistory st.messages ++
              [{ role := "user", content := inputValue }]) } := by
        rw [handleSendMessage, if_neg hin, hctx, hg]
        rfl
      have key2 : handleSendMessage st inputValue true true selectedTags now
          { ragResp := .ok { results := [] }, genResp := GenResp.httpError } =
          { state :=
              { messages := (st.messages ++ [mkUserMessage now inputValue]) ++
                  [mkFallbackMessage (now + 1)],
                isLoading := false },
            ragQuery := some (mkRagQuery inputValue selectedTags),
            genRequest := some (toHistory st.messages ++
              [{ role := "user", content := inputValue }]) } := by
        rw [handleSendMessage, if_neg hin]
        rfl
      exact ⟨key.trans key2.symm, by rw [key], by rw [key]⟩

/-- Witness for C7: a concrete turn with the Retrieval Service
unreachable and the generation stream succeeding. -/
theorem ragFailureActsAsZeroHits_witness :
    trimStr "Hola" ≠ "" ∧
    (∀ d, chatEnvRagDown.ragResp ≠ FetchResult.ok d) ∧
    handleSendMessage demoChatState "Hola" true true [] 20 chatEnvRagDown =
      handleSendMessage demoChatState "Hola" true true [] 20
        { ragResp := .ok { results := [] }, genResp := chatEnvRagDown.genResp } ∧
    (handleSendMessage demoChatState "Hola" true true [] 20
        chatEnvRagDown).genRequest =
      some (toHistory demoChatState.messages ++
        [{ role := "user", content := "Hola" }]) ∧
    (handleSendMessage demoChatState "Hola" true true [] 20
        chatEnvRagDown).state.isLoading = false :=
  ⟨by decide, fun d h => by simp [chatEnvRagDown] at h,
   ragFailureActsAsZeroHits demoChatState "Hola" [] 20 chatEnvRagDown
     (by decide) (fun d h => by simp [chatEnvRagDown] at h)⟩
